import Mathlib

/-!
Verification development for the Meteostick weewx driver
(`bin/user/meteostick.py`, driver version 0.14).

The Python source is shallowly embedded below:

* `parse_readings` (lines 310-392) — the stateless line decoder.  Python list
  indexing (`parts[i]`), which raises `IndexError` when out of range, is
  modelled by `pyGet` returning `Except`; `float(...)`/`int(...)` conversion
  failures (`ValueError`) are modelled by `toFloatE`/`toIntE`; the statement
  `try: ... except ValueError: ... return data` is modelled by the wrapper
  `parse_readings`, which turns a caught `ValueError` into the data collected
  so far, exactly as the Python code returns the partially populated dict.
* `sens_to_threshold` (lines 469-476), `ch_to_xmit` (lines 454-467).
* `configure` (lines 394-452), embedded as the list of command strings it
  writes, in order.
* `get_readings_with_retry` (lines 297-308), with the serial transport
  abstracted as a function from the attempt number to `Option String`
  (`none` = the attempt raised `serial.serialutil.SerialException`).
* `_data_to_packet` (lines 194-215) minus the `dateTime`/`usUnits` bookkeeping,
  together with `DEFAULT_SENSOR_MAP` and the rain-delta state update.

Python `float` values are modelled as rationals (ℚ); the numeric literals in
the source (`0.254`, `0.2`, `100.0`, `128`) are exact in this model.
-/

/-- Model of Python's `str.split(sep)` for a one-character separator applied to
a list of characters: splits at every occurrence of `sep`, keeping empty
pieces, and always returns at least one piece (`''.split(' ') == ['']`). -/
def pySplitChar (sep : Char) : List Char → List (List Char)
  | [] => [[]]
  | c :: cs =>
    match pySplitChar sep cs with
    | [] => [[c]]
    | t :: ts => if c = sep then [] :: t :: ts else (c :: t) :: ts

/-- Tokenisation used by `parse_readings`: `raw.split(' ')` (line 315). -/
def pyTokens (raw : String) : List String :=
  (pySplitChar ' ' raw.toList).map (fun l => String.mk l)

/-- A nonempty list of decimal digit characters. -/
def allDigits (l : List Char) : Bool :=
  decide (l ≠ []) && l.all (fun c => c.isDigit)

/-- Numeric value of a list of decimal digits. -/
def digitsVal (l : List Char) : Nat :=
  l.foldl (fun a c => a * 10 + (c.toNat - 48)) 0

/-- Model of Python's builtin `float(s)` on the protocol's tokens: an optional
sign followed by decimal digits with at most one decimal point and at least
one digit (`"1"`, `"-65"`, `"3.5"`, `"1."`, `".5"`).  The exotic corners of the
builtin's grammar (exponents, `inf`, `nan`, surrounding whitespace) are not
reachable from space-split serial tokens handled by this driver's claims and
are treated as conversion failures.  Failure (`none`) models `ValueError`. -/
def pyFloat (s : String) : Option Rat :=
  let l := s.toList
  let signAndBody : Bool × List Char :=
    match l with
    | '-' :: r => (true, r)
    | '+' :: r => (false, r)
    | _ => (false, l)
  let body := signAndBody.2
  let val? : Option Rat :=
    match pySplitChar '.' body with
    | [ip] => if allDigits ip then some ((digitsVal ip : Int) : Rat) else none
    | [ip, fp] =>
      if (decide (ip ≠ []) || decide (fp ≠ []))
          && ip.all (fun c => c.isDigit) && fp.all (fun c => c.isDigit) then
        some (((digitsVal ip : Int) : Rat) + (digitsVal fp : Rat) / ((10 : Rat) ^ fp.length))
      else none
    | _ => none
  val?.map (fun v => if signAndBody.1 then -v else v)

/-- Model of Python 2's builtin `int(s)` on a string: optional sign followed by
at least one decimal digit.  Failure (`none`) models `ValueError`. -/
def pyInt (s : String) : Option Int :=
  match s.toList with
  | '-' :: r => if allDigits r then some (-(digitsVal r : Int)) else none
  | '+' :: r => if allDigits r then some ((digitsVal r : Int)) else none
  | l => if allDigits l then some ((digitsVal l : Int)) else none

/-- Model of Python's `s.strip('%')` (line 327): remove leading and trailing
`'%'` characters. -/
def stripPct (s : String) : String :=
  String.mk (((s.toList.dropWhile (fun c => c = '%')).reverse.dropWhile
    (fun c => c = '%')).reverse)

/-- Model of Python's substring test `a in b` for strings, used by the tag
dispatch `parts[0] in 'WT'` etc. (lines 330, 357, 370, 385).  Note that the
empty string is a substring of everything, exactly as in Python. -/
def pyInStr (a : String) (b : String) : Bool :=
  b.toList.tails.any (fun t => a.toList.isPrefixOf t)

/-- The decoded result of one line: the `data` dict built by `parse_readings`.
`channel` and `rf_signal` are the two keys always present (initialised to
`None`, line 314); all other keys are observation names collected in `obs` in
insertion order. -/
structure Reading where
  channel : Option Int
  rf_signal : Option Rat
  obs : List (String × Rat)
deriving DecidableEq, Repr

/-- The empty `data` dict `{'channel': None, 'rf_signal': None}` (line 314). -/
def emptyReading : Reading := { channel := none, rf_signal := none, obs := [] }

/-- Python exceptions that can arise inside the `try` block of
`parse_readings`: a `ValueError` from `float`/`int` (carrying the `data` dict
as mutated so far, since the `except` clause returns it), or an `IndexError`
from an out-of-range `parts[i]` (not caught by the `except ValueError`
clause). -/
inductive StepErr where
  | valueErr (d : Reading)
  | indexErr
deriving DecidableEq, Repr

/-- Python list indexing `parts[i]`: raises `IndexError` out of range. -/
def pyGet (parts : List String) (i : Nat) : Except StepErr String :=
  match parts[i]? with
  | some s => Except.ok s
  | none => Except.error StepErr.indexErr

/-- `float(s)` inside the `try` block: a `ValueError` carries the current
`data` dict `d`. -/
def toFloatE (d : Reading) (s : String) : Except StepErr Rat :=
  match pyFloat s with
  | some v => Except.ok v
  | none => Except.error (StepErr.valueErr d)

/-- `int(s)` inside the `try` block. -/
def toIntE (d : Reading) (s : String) : Except StepErr Int :=
  match pyInt s with
  | some v => Except.ok v
  | none => Except.error (StepErr.valueErr d)

/-- `data[k] = v` for an observation key. -/
def addObs (d : Reading) (k : String) (v : Rat) : Reading :=
  { d with obs := d.obs ++ [(k, v)] }

/-- The shared shape `data[ki] = float(parts[i]); data[kj] = float(parts[j])`
of the `B` (tokens 1, 2), `W` (tokens 2, 3) and `T` (tokens 2, 3) record
decoders. -/
def twoFloatObs (parts : List String) (i j : Nat) (d : Reading)
    (ki kj : String) : Except StepErr Reading :=
  match pyGet parts i with
  | Except.error e => Except.error e
  | Except.ok si =>
    match toFloatE d si with
    | Except.error e => Except.error e
    | Except.ok vi =>
      let d2 := addObs d ki vi
      match pyGet parts j with
      | Except.error e => Except.error e
      | Except.ok sj =>
        match toFloatE d2 sj with
        | Except.error e => Except.error e
        | Except.ok vj => Except.ok (addObs d2 kj vj)

/-- The `B` branch of `parse_readings` (lines 320-329). -/
def parseB (parts : List String) : Except StepErr Reading :=
  let n := parts.length
  let d : Reading := { channel := some 0, rf_signal := some 0, obs := [] }
  if 3 ≤ n then
    match twoFloatObs parts 1 2 d "in_temp" "pressure" with
    | Except.error e => Except.error e
    | Except.ok d2 =>
      if 4 ≤ n then
        match pyGet parts 3 with
        | Except.error e => Except.error e
        | Except.ok s3 =>
          match toFloatE d2 (stripPct s3) with
          | Except.error e => Except.error e
          | Except.ok v3 => Except.ok (addObs d2 "pct_good" (100 - v3))
      else Except.ok d2
  else
    Except.ok d

/-- `bat = 1 if n >= 6 and parts[5] == 'L' else 0` (line 334), also used with
index 4 by the `RSUP` branch (line 374).  The guard `k+1 ≤ n` short-circuits,
so `parts[k]` is only accessed when in range. -/
def batFlag (parts : List String) (k : Nat) : Except StepErr Rat :=
  if k + 1 ≤ parts.length then
    match pyGet parts k with
    | Except.error e => Except.error e
    | Except.ok s => Except.ok (if s = "L" then 1 else 0)
  else Except.ok 0

/-- The `WT` branch of `parse_readings` (lines 330-356); `t0` is `parts[0]`. -/
def parseWT (parts : List String) (t0 : String) (iss th1 th2 : Int) :
    Except StepErr Reading :=
  let n := parts.length
  if 5 ≤ n then
    match pyGet parts 1 with
    | Except.error e => Except.error e
    | Except.ok s1 =>
      match toIntE emptyReading s1 with
      | Except.error e => Except.error e
      | Except.ok ch =>
        let d0 : Reading := ⟨some ch, none, []⟩
        match pyGet parts 4 with
        | Except.error e => Except.error e
        | Except.ok s4 =>
          match toFloatE d0 s4 with
          | Except.error e => Except.error e
          | Except.ok rf =>
            let d : Reading := ⟨some ch, some rf, []⟩
            match batFlag parts 5 with
            | Except.error e => Except.error e
            | Except.ok bat =>
              if t0 = "W" then
                if iss ≠ 0 ∧ ch = iss then
                  twoFloatObs parts 2 3 (addObs d "bat_iss" bat)
                    "wind_speed" "wind_dir"
                else
                  twoFloatObs parts 2 3 (addObs d "bat_anemometer" bat)
                    "wind_speed" "wind_dir"
              else if t0 = "T" then
                if th1 ≠ 0 ∧ ch = th1 then
                  twoFloatObs parts 2 3 (addObs d "bat_th_1" bat)
                    "temp_1" "humid_1"
                else if th2 ≠ 0 ∧ ch = th2 then
                  twoFloatObs parts 2 3 (addObs d "bat_th_2" bat)
                    "temp_2" "humid_2"
                else
                  twoFloatObs parts 2 3 (addObs d "bat_iss" bat)
                    "temperature" "humidity"
              else
                Except.ok d
  else
    Except.ok emptyReading

/-- The `LMO` branch of `parse_readings` (lines 357-369). -/
def parseLMO (parts : List String) (t0 : String) : Except StepErr Reading :=
  let n := parts.length
  if 5 ≤ n then
    match pyGet parts 1 with
    | Except.error e => Except.error e
    | Except.ok s1 =>
      match toIntE emptyReading s1 with
      | Except.error e => Except.error e
      | Except.ok ch =>
        let d0 : Reading := ⟨some ch, none, []⟩
        match pyGet parts 4 with
        | Except.error e => Except.error e
        | Except.ok s4 =>
          match toFloatE d0 s4 with
          | Except.error e => Except.error e
          | Except.ok rf =>
            match batFlag parts 5 with
            | Except.error e => Except.error e
            | Except.ok bat =>
              let d : Reading := ⟨some ch, some rf,
                [("bat_soil_leaf", bat)]⟩
              let prefixKey : Option String :=
                if t0 = "L" then some "leaf_wetness_"
                else if t0 = "M" then some "soil_moisture_"
                else if t0 = "O" then some "soil_temp_"
                else none
              match prefixKey with
              | none => Except.ok d
              | some pk =>
                match pyGet parts 2 with
                | Except.error e => Except.error e
                | Except.ok s2 =>
                  match pyGet parts 3 with
                  | Except.error e => Except.error e
                  | Except.ok s3 =>
                    match toFloatE d s3 with
                    | Except.error e => Except.error e
                    | Except.ok v => Except.ok (addObs d (pk ++ s2) v)
  else
    Except.ok emptyReading

/-- The `RSUP` branch of `parse_readings` (lines 370-384). -/
def parseRSUP (parts : List String) (t0 : String) : Except StepErr Reading :=
  let n := parts.length
  if 4 ≤ n then
    match pyGet parts 1 with
    | Except.error e => Except.error e
    | Except.ok s1 =>
      match toIntE emptyReading s1 with
      | Except.error e => Except.error e
      | Except.ok ch =>
        let d0 : Reading := ⟨some ch, none, []⟩
        match pyGet parts 3 with
        | Except.error e => Except.error e
        | Except.ok s3 =>
          match toFloatE d0 s3 with
          | Except.error e => Except.error e
          | Except.ok rf =>
            match batFlag parts 4 with
            | Except.error e => Except.error e
            | Except.ok bat =>
              let d : Reading := ⟨some ch, some rf,
                [("bat_iss", bat)]⟩
              match pyGet parts 2 with
              | Except.error e => Except.error e
              | Except.ok s2 =>
                if t0 = "R" then
                  match toIntE d s2 with
                  | Except.error e => Except.error e
                  | Except.ok rc => Except.ok (addObs d "rain_count" (rc : Rat))
                else if t0 = "S" then
                  match toFloatE d s2 with
                  | Except.error e => Except.error e
                  | Except.ok v => Except.ok (addObs d "solar_radiation" v)
                else if t0 = "U" then
                  match toFloatE d s2 with
                  | Except.error e => Except.error e
                  | Except.ok v => Except.ok (addObs d "uv" v)
                else if t0 = "P" then
                  match toFloatE d s2 with
                  | Except.error e => Except.error e
                  | Except.ok v => Except.ok (addObs d "solar_power" v)
                else
                  Except.ok d
  else
    Except.ok emptyReading

/-- The body of the `try` block of `parse_readings` (lines 319-389): dispatch
on `parts[0]`. -/
def parseTry (parts : List String) (iss th1 th2 : Int) : Except StepErr Reading :=
  match pyGet parts 0 with
  | Except.error e => Except.error e
  | Except.ok t0 =>
    if t0 = "B" then parseB parts
    else if pyInStr t0 "WT" then parseWT parts t0 iss th1 th2
    else if pyInStr t0 "LMO" then parseLMO parts t0
    else if pyInStr t0 "RSUP" then parseRSUP parts t0
    else Except.ok emptyReading

/-- `Meteostick.parse_readings(raw, iss_channel, th1_channel, th2_channel)`
(lines 310-392).  `Except.ok none` models the early `return None` on empty
input; `Except.ok (some d)` models returning the `data` dict (also when a
`ValueError` was caught, since the `except` clause falls through to
`return data`); `Except.error` models an uncaught Python exception escaping
the call. -/
def parse_readings (raw : String) (iss th1 th2 : Int) :
    Except StepErr (Option Reading) :=
  if raw = "" then Except.ok none
  else
    match parseTry (pyTokens raw) iss th1 th2 with
    | Except.ok d => Except.ok (some d)
    | Except.error (StepErr.valueErr d) => Except.ok (some d)
    | Except.error StepErr.indexErr => Except.error StepErr.indexErr

/-- `MeteostickDriver.DEFAULT_RF_SENSITIVITY` (line 77). -/
def DEFAULT_RF_SENSITIVITY : Nat := 90

/-- `Meteostick.sens_to_threshold(rf_sens_request)` (lines 469-476).  The
Python 2 expression `((abs(rf_sens_request) + 2) / 5) * 5` uses integer
division on a non-negative operand, so `Nat` division is exact here; the
returned pair is `(threshold, actual_sensitivity)` = `(s * 2, s)`. -/
def sens_to_threshold (rf_sens_request : Int) : Nat × Nat :=
  let s := ((rf_sens_request.natAbs + 2) / 5) * 5
  let s := if s > 125 then DEFAULT_RF_SENSITIVITY else s
  (s * 2, s)

/-- `Meteostick.ch_to_xmit(...)` (lines 454-467).  Channel arguments are the
configured channel numbers; the caller supplies values in 0-8 with
`iss_channel ≥ 1` (Python raises `ValueError` on the negative shift
`1 << (0 - 1)`, so `iss_channel = 0` never reaches a result; the other
channels are shifted only when non-zero).  `1 << (ch - 1)` is `2 ^ (ch - 1)`
and the accumulation uses `+`, exactly as the source. -/
def ch_to_xmit (iss_channel anemometer_channel leaf_soil_channel
    temp_hum_1_channel temp_hum_2_channel : Nat) : Nat :=
  let transmitters := 0 + 2 ^ (iss_channel - 1)
  let transmitters := if anemometer_channel ≠ 0 then
    transmitters + 2 ^ (anemometer_channel - 1) else transmitters
  let transmitters := if leaf_soil_channel ≠ 0 then
    transmitters + 2 ^ (leaf_soil_channel - 1) else transmitters
  let transmitters := if temp_hum_1_channel ≠ 0 then
    transmitters + 2 ^ (temp_hum_1_channel - 1) else transmitters
  let transmitters := if temp_hum_2_channel ≠ 0 then
    transmitters + 2 ^ (temp_hum_2_channel - 1) else transmitters
  transmitters

/-- The frequency command chosen by `Meteostick.configure` (lines 437-442):
`'m2\r'` for `'AU'`, `'m1\r'` for `'EU'`, `'m0\r'` otherwise (US default). -/
def freq_command (frequency : String) : String :=
  if frequency = "AU" then "m2\r"
  else if frequency = "EU" then "m1\r"
  else "m0\r"

/-- The sequence of command strings `Meteostick.configure` writes to the
serial port, in order (lines 394-443): reset `'r\n'`, then via
`send_command`: threshold `'x<threshold>\r'`, transmitters `'t<bitmask>\r'`,
filter `'f1\r'`, output mode `'o1\r'`, and the frequency command. -/
def configure_commands (rf_threshold transmitters : Nat) (frequency : String) :
    List String :=
  ["r\n",
   "x" ++ toString rf_threshold ++ "\r",
   "t" ++ toString transmitters ++ "\r",
   "f1\r",
   "o1\r",
   freq_command frequency]

/-- Result of `Meteostick.get_readings_with_retry` (lines 297-308): either the
line returned by a successful `get_readings()` call, or the
`weewx.RetriesExceeded` exception raised after the `for` loop's `else`
clause. -/
inductive RetryResult where
  | line (buf : String)
  | retriesExceeded (max_tries : Nat)
deriving DecidableEq, Repr

/-- The retry loop of `get_readings_with_retry` from attempt number `ntries`
on.  The serial transport is abstracted as `attempt : Nat → Option String`:
`attempt i = some buf` means the `(i+1)`-st `get_readings()` call returns
`buf`, `none` means it raises `serial.serialutil.SerialException`.  The
second component of the result counts the `time.sleep(retry_wait)` calls
executed (one per failed attempt). -/
def retryFrom (attempt : Nat → Option String) (max_tries ntries : Nat) :
    RetryResult × Nat :=
  if _h : ntries < max_tries then
    match attempt ntries with
    | some buf => (RetryResult.line buf, ntries)
    | none => retryFrom attempt max_tries (ntries + 1)
  else
    (RetryResult.retriesExceeded max_tries, ntries)
termination_by max_tries - ntries
decreasing_by omega

/-- `Meteostick.get_readings_with_retry(max_tries, retry_wait)`
(lines 297-308): the loop starts at `ntries = 0`. -/
def get_readings_with_retry (attempt : Nat → Option String) (max_tries : Nat) :
    RetryResult × Nat :=
  retryFrom attempt max_tries 0

/-- `MeteostickDriver.DEFAULT_SENSOR_MAP` (lines 78-108). -/
def DEFAULT_SENSOR_MAP : List (String × String) :=
  [("pressure", "pressure"),
   ("in_temp", "inTemp"),
   ("wind_speed", "windSpeed"),
   ("wind_dir", "windDir"),
   ("temperature", "outTemp"),
   ("humidity", "outHumidity"),
   ("rain_count", "rain"),
   ("solar_radiation", "radiation"),
   ("uv", "UV"),
   ("pct_good", "rxCheckPercent"),
   ("solar_power", "extraTemp3"),
   ("soil_temp_1", "soilTemp1"),
   ("soil_temp_2", "soilTemp2"),
   ("soil_temp_3", "soilTemp3"),
   ("soil_temp_4", "soilTemp4"),
   ("soil_moisture_1", "soilMoist1"),
   ("soil_moisture_2", "soilMoist2"),
   ("soil_moisture_3", "soilMoist3"),
   ("soil_moisture_4", "soilMoist4"),
   ("leaf_wetness_1", "leafWet1"),
   ("leaf_wetness_2", "leafWet2"),
   ("temp_1", "extraTemp1"),
   ("temp_2", "extraTemp2"),
   ("humid_1", "extraHumid1"),
   ("humid_2", "extraHumid2"),
   ("bat_iss", "txBatteryStatus"),
   ("bat_anemometer", "windBatteryStatus"),
   ("bat_soil_leaf", "rainBatteryStatus"),
   ("bat_th_1", "outTempBatteryStatus"),
   ("bat_th_2", "inTempBatteryStatus")]

/-- Dictionary lookup in a sensor map (`k in self.sensor_map` /
`self.sensor_map[k]`, line 199). -/
def lookupSM (m : List (String × String)) (k : String) : Option String :=
  (m.find? (fun p => p.1 == k)).map (fun p => p.2)

/-- `self.rain_per_tip` (line 127): `0.254 if rain_bucket_type == 0 else 0.2`
(millimetres per bucket tip). -/
def rain_per_tip (rain_bucket_type : Int) : Rat :=
  if rain_bucket_type = 0 then 0.254 else 0.2

/-- `self.last_rain_count = None` (line 131): the rain baseline at driver
construction. -/
def init_last_rain_count : Option Rat := none

/-- The rain-delta computation of `_data_to_packet` (lines 202-209): with no
prior baseline the delta is `0`; otherwise it is `packet['rain'] - last`,
with `128` added when that difference is negative (counter wrap from 127 to
0). -/
def rain_delta (last_rain_count : Option Rat) (raw : Rat) : Rat :=
  let rain_count : Rat :=
    match last_rain_count with
    | some last => raw - last
    | none => 0
  if rain_count < 0 then rain_count + 128 else rain_count

/-- `MeteostickDriver._data_to_packet(data)` (lines 194-215), omitting the
`dateTime`/`usUnits` bookkeeping, which is wall-clock I/O: map observation
names through the sensor map, then, when the packet has a `'rain'` key
(`rain_count` under the default map), replace its value by
`delta * rain_per_tip` and store the raw count as the new baseline.  Returns
the packet together with the new `self.last_rain_count`. -/
def data_to_packet (sensor_map : List (String × String)) (rpt : Rat)
    (last_rain_count : Option Rat) (data : List (String × Rat)) :
    List (String × Rat) × Option Rat :=
  let packet := data.filterMap
    (fun p => (lookupSM sensor_map p.1).map (fun k => (k, p.2)))
  match packet.find? (fun p => p.1 == "rain") with
  | none => (packet, last_rain_count)
  | some pr =>
    let raw := pr.2
    let rc := rain_delta last_rain_count raw
    (packet.map (fun p => if p.1 == "rain" then (p.1, rc * rpt) else p),
     some raw)

/-- Modelled from the spec's record-type table (§4.2): the observation keys a
record type, identified by its one-character tag, can legitimately produce.
For `L`/`M`/`O` the key suffix is taken verbatim from token 2, so any suffix
is legitimate for the corresponding prefix. -/
def legitObsKey (tag : String) (k : String) : Prop :=
  (tag = "B" ∧ k ∈ (["in_temp", "pressure", "pct_good"] : List String)) ∨
  (tag = "W" ∧
    k ∈ (["bat_iss", "bat_anemometer", "wind_speed", "wind_dir"] : List String)) ∨
  (tag = "T" ∧
    k ∈ (["bat_th_1", "temp_1", "humid_1", "bat_th_2", "temp_2", "humid_2",
          "bat_iss", "temperature", "humidity"] : List String)) ∨
  (tag = "L" ∧ (k = "bat_soil_leaf" ∨ ∃ sfx, k = "leaf_wetness_" ++ sfx)) ∨
  (tag = "M" ∧ (k = "bat_soil_leaf" ∨ ∃ sfx, k = "soil_moisture_" ++ sfx)) ∨
  (tag = "O" ∧ (k = "bat_soil_leaf" ∨ ∃ sfx, k = "soil_temp_" ++ sfx)) ∨
  (tag = "R" ∧ k ∈ (["bat_iss", "rain_count"] : List String)) ∨
  (tag = "S" ∧ k ∈ (["bat_iss", "solar_radiation"] : List String)) ∨
  (tag = "U" ∧ k ∈ (["bat_iss", "uv"] : List String)) ∨
  (tag = "P" ∧ k ∈ (["bat_iss", "solar_power"] : List String))

/-- Key legitimacy relative to a line's leading token: whenever the token is
one of the ten record tags, the key must be legitimate for that tag.  (For a
leading token that is not a record tag the spec's table imposes nothing.) -/
def tagLegit (t0 k : String) : Prop :=
  t0 ∈ (["B", "W", "T", "L", "M", "O", "R", "S", "U", "P"] : List String) →
    legitObsKey t0 k

/-- Claim C2: for every integer input `r`, the sensitivity conversion computes
`s = ((|r| + 2) / 5) * 5` with truncating integer division, replaces `s` by
the default `90` whenever `s > 125`, and returns `(2*s, s)`; in particular it
maps `90 ↦ (180, 90)`, `92 ↦ (180, 90)`, `93 ↦ (190, 95)` and
`130 ↦ (180, 90)`. -/
theorem C2_sens_to_threshold :
    (∀ r : Int, sens_to_threshold r =
      (if 125 < ((r.natAbs + 2) / 5) * 5 then ((2 * 90 : Nat), (90 : Nat))
       else (2 * (((r.natAbs + 2) / 5) * 5), ((r.natAbs + 2) / 5) * 5))) ∧
    sens_to_threshold 90 = (180, 90) ∧
    sens_to_threshold 92 = (180, 90) ∧
    sens_to_threshold 93 = (190, 95) ∧
    sens_to_threshold 130 = (180, 90) := by
  refine ⟨fun r => ?_, by decide, by decide, by decide, by decide⟩
  simp only [sens_to_threshold, DEFAULT_RF_SENSITIVITY]
  split_ifs with h
  · simp [Nat.mul_comm]
  · simp [Nat.mul_comm]

/-- Claim C8: for every integer input, positive or negative, the sensitivity
conversion is total (it is a Lean `def`, hence has no error conditions) and
the threshold component of its result lies in `[0, 250]` (the lower bound is
inherent in the `Nat` result type). -/
theorem C8_threshold_range : ∀ r : Int, (sens_to_threshold r).1 ≤ 250 := by
  intro r
  simp only [sens_to_threshold, DEFAULT_RF_SENSITIVITY]
  split_ifs with h
  · omega
  · simp only [not_lt] at h
    omega

/-- Claim C7: the configuration handshake writes the bit-exact command strings
in order: reset `"r\n"`, threshold `"x<threshold>\r"`, transmitters
`"t<bitmask>\r"`, filter `"f1\r"`, output mode `"o1\r"`, and frequency, with
`'AU' ↦ "m2\r"`, `'EU' ↦ "m1\r"`, and any other tag `↦ "m0\r"`. -/
theorem C7_configure_commands :
    (∀ t x : Nat, configure_commands t x "AU" =
      ["r\n", "x" ++ toString t ++ "\r", "t" ++ toString x ++ "\r",
       "f1\r", "o1\r", "m2\r"]) ∧
    (∀ t x : Nat, configure_commands t x "EU" =
      ["r\n", "x" ++ toString t ++ "\r", "t" ++ toString x ++ "\r",
       "f1\r", "o1\r", "m1\r"]) ∧
    (∀ (t x : Nat) (f : String), f ≠ "AU" → f ≠ "EU" →
      configure_commands t x f =
      ["r\n", "x" ++ toString t ++ "\r", "t" ++ toString x ++ "\r",
       "f1\r", "o1\r", "m0\r"]) := by
  refine ⟨fun t x => ?_, fun t x => ?_, fun t x f h1 h2 => ?_⟩
  · simp [configure_commands, freq_command]
  · simp [configure_commands, freq_command]
  · simp [configure_commands, freq_command, h1, h2]

/-- Witness for C7 at `threshold = 180`, `transmitters = 3`, frequency tag
`"US"` (neither `"AU"` nor `"EU"`). -/
theorem C7_configure_commands_witness :
    configure_commands 180 3 "US" =
      ["r\n", "x180\r", "t3\r", "f1\r", "o1\r", "m0\r"] :=
  C7_configure_commands.2.2 180 3 "US" (by decide) (by decide)

/-- Claim C3 counterexample: the claim asserts that bit `(channel-1)` is set
for each non-zero channel argument, but the code accumulates with `+`, not
bitwise or, so duplicate channels carry: `ch_to_xmit(1,1,0,0,0) = 1 + 1 = 2`
and bit `0` (for either channel-1 argument) is clear. -/
theorem C3_counterexample :
    ch_to_xmit 1 1 0 0 0 = 2 ∧
    Nat.testBit (ch_to_xmit 1 1 0 0 0) (1 - 1) = false := by decide

/-- Distinct powers of two below `2 ^ e` sum to less than `2 ^ e`. -/
lemma sum_two_pow_lt {e : ℕ} {es : List ℕ} (hnd : es.Nodup)
    (hlt : ∀ f ∈ es, f < e) : (es.map (2 ^ ·)).sum < 2 ^ e := by
  have h1 : es.toFinset.sum (2 ^ ·) = (es.map (2 ^ ·)).sum :=
    List.sum_toFinset _ hnd
  rw [← h1]
  exact Nat.geomSum_lt (by norm_num) (fun k hk => hlt k (List.mem_toFinset.mp hk))

/-- Adding a sum of distinct powers of two, none with exponent `e`, to
`2 ^ e` leaves bit `e` set. -/
lemma testBit_two_pow_add_sum {e : ℕ} {es : List ℕ} (hnd : (e :: es).Nodup) :
    Nat.testBit (2 ^ e + (es.map (2 ^ ·)).sum) e = true := by
  obtain ⟨hmem, hnd2⟩ := List.nodup_cons.mp hnd
  have hperm := List.filter_append_perm (fun f => decide (f < e)) es
  have hsum : (es.map (2 ^ ·)).sum =
      ((es.filter (fun f => decide (f < e))).map (2 ^ ·)).sum +
      ((es.filter (fun f => !decide (f < e))).map (2 ^ ·)).sum := by
    rw [← List.sum_append, ← List.map_append]
    exact ((hperm.map _).sum_eq).symm
  have hlo : ((es.filter (fun f => decide (f < e))).map (2 ^ ·)).sum < 2 ^ e :=
    sum_two_pow_lt (hnd2.filter _) (fun f hf => by
      have := (List.mem_filter.mp hf).2
      simpa using this)
  have hhirw : (es.filter (fun f => !decide (f < e))).map (2 ^ ·) =
      (es.filter (fun f => !decide (f < e))).map
        (fun f => 2 ^ (e + 1) * 2 ^ (f - (e + 1))) := by
    apply List.map_congr_left
    intro f hf
    obtain ⟨hfes, hfge⟩ := List.mem_filter.mp hf
    have h1 : ¬ f < e := by simpa using hfge
    have h2 : f ≠ e := fun h => hmem (h ▸ hfes)
    rw [← pow_add]
    congr 1
    omega
  have hhi : ((es.filter (fun f => !decide (f < e))).map (2 ^ ·)).sum =
      2 ^ (e + 1) * ((es.filter (fun f => !decide (f < e))).map
        (fun f => 2 ^ (f - (e + 1)))).sum := by
    rw [hhirw, List.sum_map_mul_left]
  have ht : 2 ^ e + (es.map (2 ^ ·)).sum =
      ((es.filter (fun f => decide (f < e))).map (2 ^ ·)).sum +
      2 ^ e * (1 + 2 * ((es.filter (fun f => !decide (f < e))).map
        (fun f => 2 ^ (f - (e + 1)))).sum) := by
    rw [hsum, hhi]
    ring
  rw [ht, Nat.testBit_to_div_mod,
    Nat.add_mul_div_left _ _ (Nat.pos_pow_of_pos e (by norm_num)),
    Nat.div_eq_of_lt hlo]
  simp only [decide_eq_true_eq]
  omega

/-- In a sum of pairwise distinct powers of two, every participating
exponent has its bit set. -/
lemma testBit_sum_two_pow_mem {es : List ℕ} (hnd : es.Nodup) {e : ℕ}
    (he : e ∈ es) : Nat.testBit ((es.map (2 ^ ·)).sum) e = true := by
  have hperm := List.perm_cons_erase he
  have hn2 : (e :: es.erase e).Nodup := (hperm.nodup_iff).mp hnd
  have hs : (es.map (2 ^ ·)).sum = 2 ^ e + ((es.erase e).map (2 ^ ·)).sum := by
    have := (hperm.map (2 ^ ·)).sum_eq
    simpa using this
  rw [hs]
  exact testBit_two_pow_add_sum hn2

/-- `ch_to_xmit` is the sum of `2 ^ (channel - 1)` over the iss channel and
the non-zero optional channels. -/
lemma ch_to_xmit_eq_sum (i a l u v : ℕ) :
    ch_to_xmit i a l u v =
      (((i - 1) :: ((if a ≠ 0 then [a - 1] else []) ++
        (if l ≠ 0 then [l - 1] else []) ++
        (if u ≠ 0 then [u - 1] else []) ++
        (if v ≠ 0 then [v - 1] else []))).map (2 ^ ·)).sum := by
  simp only [ch_to_xmit]
  split_ifs <;> simp <;> ring

/-- Under the pairwise-distinctness contract the shift amounts of
`ch_to_xmit` are pairwise distinct. -/
lemma ch_to_xmit_exps_nodup (i a l u v : ℕ) (hi : 1 ≤ i)
    (ha : a ≠ 0 → a ≠ i)
    (hl : l ≠ 0 → l ≠ i ∧ l ≠ a)
    (hu : u ≠ 0 → u ≠ i ∧ u ≠ a ∧ u ≠ l)
    (hv : v ≠ 0 → v ≠ i ∧ v ≠ a ∧ v ≠ l ∧ v ≠ u) :
    ((i - 1) :: ((if a ≠ 0 then [a - 1] else []) ++
      (if l ≠ 0 then [l - 1] else []) ++
      (if u ≠ 0 then [u - 1] else []) ++
      (if v ≠ 0 then [v - 1] else []))).Nodup := by
  split_ifs with h1 h2 h3 h4 <;>
    simp [List.nodup_cons, List.nodup_append, List.mem_append] <;>
    omega

/-- Claim C3 as amended: when the iss channel is at least 1 and the non-zero
channel arguments are pairwise distinct (as distinct physical transmitters
are), the encoding sets bit `(channel-1)` for each non-zero argument, with
the iss channel always included; in particular `ch_to_xmit 1 0 0 0 0 = 1`,
`ch_to_xmit 1 2 0 0 0 = 3` and `ch_to_xmit 3 0 5 0 0 = 20`. -/
theorem C3_amended :
    (∀ i a l u v : Nat, 1 ≤ i →
      (a ≠ 0 → a ≠ i) →
      (l ≠ 0 → l ≠ i ∧ l ≠ a) →
      (u ≠ 0 → u ≠ i ∧ u ≠ a ∧ u ≠ l) →
      (v ≠ 0 → v ≠ i ∧ v ≠ a ∧ v ≠ l ∧ v ≠ u) →
      (Nat.testBit (ch_to_xmit i a l u v) (i - 1) = true ∧
       (a ≠ 0 → Nat.testBit (ch_to_xmit i a l u v) (a - 1) = true) ∧
       (l ≠ 0 → Nat.testBit (ch_to_xmit i a l u v) (l - 1) = true) ∧
       (u ≠ 0 → Nat.testBit (ch_to_xmit i a l u v) (u - 1) = true) ∧
       (v ≠ 0 → Nat.testBit (ch_to_xmit i a l u v) (v - 1) = true))) ∧
    ch_to_xmit 1 0 0 0 0 = 1 ∧
    ch_to_xmit 1 2 0 0 0 = 3 ∧
    ch_to_xmit 3 0 5 0 0 = 20 := by
  refine ⟨?_, by norm_num [ch_to_xmit], by norm_num [ch_to_xmit],
    by norm_num [ch_to_xmit]⟩
  intro i a l u v hi ha hl hu hv
  have hnd := ch_to_xmit_exps_nodup i a l u v hi ha hl hu hv
  rw [ch_to_xmit_eq_sum i a l u v]
  refine ⟨?_, fun ha0 => ?_, fun hl0 => ?_, fun hu0 => ?_, fun hv0 => ?_⟩
  · exact testBit_sum_two_pow_mem hnd (by simp)
  · exact testBit_sum_two_pow_mem hnd (by simp [ha0])
  · exact testBit_sum_two_pow_mem hnd (by simp [hl0])
  · exact testBit_sum_two_pow_mem hnd (by simp [hu0])
  · exact testBit_sum_two_pow_mem hnd (by simp [hv0])

/-- Witness for C3 as amended, at the spec example `ch_to_xmit(3,0,5,0,0)`:
bits 2 and 4 are set in the result. -/
theorem C3_amended_witness :
    Nat.testBit (ch_to_xmit 3 0 5 0 0) (3 - 1) = true ∧
    Nat.testBit (ch_to_xmit 3 0 5 0 0) (5 - 1) = true := by
  have h := C3_amended.1 3 0 5 0 0 (by decide) (by decide) (by decide)
    (by decide) (by decide)
  exact ⟨h.1, h.2.2.1 (by decide)⟩

lemma pyGet_ok_of_lt {parts : List String} {i : Nat} (h : i < parts.length) :
    ∃ s, pyGet parts i = Except.ok s := by
  cases hx : parts[i]? with
  | none =>
    have := List.getElem?_eq_none_iff.mp hx
    omega
  | some s => exact ⟨s, by simp [pyGet, hx]⟩

lemma batFlag_ok (parts : List String) (k : Nat) :
    ∃ b, batFlag parts k = Except.ok b := by
  simp only [batFlag]
  by_cases h : k + 1 ≤ parts.length
  · simp only [if_pos h]
    obtain ⟨s, hs⟩ := pyGet_ok_of_lt (show k < parts.length by omega)
    rw [hs]
    exact ⟨_, rfl⟩
  · simp only [if_neg h]
    exact ⟨0, rfl⟩

lemma twoFloatObs_spec (parts : List String) (i j : Nat) (d : Reading)
    (ki kj : String) (hi : i < parts.length) (hj : j < parts.length) :
    (∃ vi vj, twoFloatObs parts i j d ki kj =
        Except.ok (addObs (addObs d ki vi) kj vj)) ∨
    (∃ e, twoFloatObs parts i j d ki kj =
        Except.error (StepErr.valueErr e) ∧
        (e = d ∨ ∃ vi, e = addObs d ki vi)) := by
  simp only [twoFloatObs]
  obtain ⟨si, hsi⟩ := pyGet_ok_of_lt hi
  simp only [hsi]
  cases hfi : pyFloat si with
  | none =>
    simp only [toFloatE, hfi]
    exact Or.inr ⟨d, rfl, Or.inl rfl⟩
  | some vi =>
    simp only [toFloatE, hfi]
    obtain ⟨sj, hsj⟩ := pyGet_ok_of_lt hj
    simp only [hsj]
    cases hfj : pyFloat sj with
    | none =>
      simp only [toFloatE, hfj]
      exact Or.inr ⟨_, rfl, Or.inr ⟨vi, rfl⟩⟩
    | some vj =>
      simp only [toFloatE, hfj]
      exact Or.inl ⟨vi, vj, rfl⟩

lemma twoFloatObs_keys (parts : List String) (i j : Nat) (d : Reading)
    (ki kj : String) (L : List String) (hi : i < parts.length)
    (hj : j < parts.length) (hd : ∀ p ∈ d.obs, p.1 ∈ L)
    (hki : ki ∈ L) (hkj : kj ∈ L) :
    (∃ r, twoFloatObs parts i j d ki kj = Except.ok r ∧
        r.channel = d.channel ∧ r.rf_signal = d.rf_signal ∧
        ∀ p ∈ r.obs, p.1 ∈ L) ∨
    (∃ r, twoFloatObs parts i j d ki kj =
        Except.error (StepErr.valueErr r) ∧
        r.channel = d.channel ∧ r.rf_signal = d.rf_signal ∧
        ∀ p ∈ r.obs, p.1 ∈ L) := by
  rcases twoFloatObs_spec parts i j d ki kj hi hj with
    ⟨vi, vj, heq⟩ | ⟨e, heq, he⟩
  · refine Or.inl ⟨_, heq, by simp [addObs], by simp [addObs], ?_⟩
    intro p hp
    simp only [addObs, List.append_assoc, List.mem_append,
      List.mem_singleton] at hp
    rcases hp with hp | hp | hp
    · exact hd p hp
    · subst hp; simpa using hki
    · subst hp; simpa using hkj
  · rcases he with rfl | ⟨vi, rfl⟩
    · exact Or.inr ⟨_, heq, rfl, rfl, hd⟩
    · refine Or.inr ⟨_, heq, by simp [addObs], by simp [addObs], ?_⟩
      intro p hp
      simp only [addObs, List.mem_append, List.mem_singleton] at hp
      rcases hp with hp | hp
      · exact hd p hp
      · subst hp; simpa using hki

lemma parseWT_spec (parts : List String) (t0 : String) (iss th1 th2 : Int) :
    (∃ d, parseWT parts t0 iss th1 th2 = Except.ok d ∧
        (d.channel.isSome ↔ d.rf_signal.isSome) ∧
        ∀ p ∈ d.obs,
          (t0 = "W" ∧ p.1 ∈ (["bat_iss", "bat_anemometer", "wind_speed",
              "wind_dir"] : List String)) ∨
          (t0 = "T" ∧ p.1 ∈ (["bat_th_1", "temp_1", "humid_1", "bat_th_2",
              "temp_2", "humid_2", "bat_iss", "temperature",
              "humidity"] : List String))) ∨
    (∃ d, parseWT parts t0 iss th1 th2 =
          Except.error (StepErr.valueErr d) ∧
        ∀ p ∈ d.obs,
          (t0 = "W" ∧ p.1 ∈ (["bat_iss", "bat_anemometer", "wind_speed",
              "wind_dir"] : List String)) ∨
          (t0 = "T" ∧ p.1 ∈ (["bat_th_1", "temp_1", "humid_1", "bat_th_2",
              "temp_2", "humid_2", "bat_iss", "temperature",
              "humidity"] : List String))) := by
  simp only [parseWT]
  by_cases h5 : 5 ≤ parts.length
  · simp only [if_pos h5]
    obtain ⟨s1, hs1⟩ := pyGet_ok_of_lt (show 1 < parts.length by omega)
    simp only [hs1]
    cases hi1 : pyInt s1 with
    | none =>
      simp only [toIntE, hi1]
      exact Or.inr ⟨_, rfl, by simp [emptyReading]⟩
    | some ch =>
      simp only [toIntE, hi1]
      obtain ⟨s4, hs4⟩ := pyGet_ok_of_lt (show 4 < parts.length by omega)
      simp only [hs4]
      cases hf4 : pyFloat s4 with
      | none =>
        simp only [toFloatE, hf4]
        exact Or.inr ⟨_, rfl, by simp⟩
      | some rf =>
        simp only [toFloatE, hf4]
        obtain ⟨bat, hbat⟩ := batFlag_ok parts 5
        simp only [hbat]
        by_cases hW : t0 = "W"
        · simp only [if_pos hW]
          by_cases hc : iss ≠ 0 ∧ ch = iss
          · simp only [if_pos hc]
            rcases twoFloatObs_keys parts 2 3
                (addObs (⟨some ch, some rf, []⟩ : Reading) "bat_iss" bat)
                "wind_speed" "wind_dir"
                ["bat_iss", "bat_anemometer", "wind_speed", "wind_dir"]
                (by omega) (by omega) (by simp [addObs]) (by simp) (by simp)
              with ⟨r, heq, hch, hrf, hobs⟩ | ⟨r, heq, hch, hrf, hobs⟩
            · simp only [heq]
              refine Or.inl ⟨r, rfl, ?_, fun p hp => Or.inl ⟨hW, hobs p hp⟩⟩
              simp only [addObs, emptyReading] at hch hrf
              rw [hch, hrf]
              simp
            · simp only [heq]
              exact Or.inr ⟨r, rfl, fun p hp => Or.inl ⟨hW, hobs p hp⟩⟩
          · simp only [if_neg hc]
            rcases twoFloatObs_keys parts 2 3
                (addObs (⟨some ch, some rf, []⟩ : Reading) "bat_anemometer"
                  bat)
                "wind_speed" "wind_dir"
                ["bat_iss", "bat_anemometer", "wind_speed", "wind_dir"]
                (by omega) (by omega) (by simp [addObs]) (by simp) (by simp)
              with ⟨r, heq, hch, hrf, hobs⟩ | ⟨r, heq, hch, hrf, hobs⟩
            · simp only [heq]
              refine Or.inl ⟨r, rfl, ?_, fun p hp => Or.inl ⟨hW, hobs p hp⟩⟩
              simp only [addObs, emptyReading] at hch hrf
              rw [hch, hrf]
              simp
            · simp only [heq]
              exact Or.inr ⟨r, rfl, fun p hp => Or.inl ⟨hW, hobs p hp⟩⟩
        · simp only [if_neg hW]
          by_cases hT : t0 = "T"
          · simp only [if_pos hT]
            by_cases hc1 : th1 ≠ 0 ∧ ch = th1
            · simp only [if_pos hc1]
              rcases twoFloatObs_keys parts 2 3
                  (addObs (⟨some ch, some rf, []⟩ : Reading) "bat_th_1" bat)
                  "temp_1" "humid_1"
                  ["bat_th_1", "temp_1", "humid_1", "bat_th_2", "temp_2",
                   "humid_2", "bat_iss", "temperature", "humidity"]
                  (by omega) (by omega) (by simp [addObs]) (by simp)
                  (by simp)
                with ⟨r, heq, hch, hrf, hobs⟩ | ⟨r, heq, hch, hrf, hobs⟩
              · simp only [heq]
                refine Or.inl ⟨r, rfl, ?_,
                  fun p hp => Or.inr ⟨hT, hobs p hp⟩⟩
                simp only [addObs, emptyReading] at hch hrf
                rw [hch, hrf]
                simp
              · simp only [heq]
                exact Or.inr ⟨r, rfl, fun p hp => Or.inr ⟨hT, hobs p hp⟩⟩
            · simp only [if_neg hc1]
              by_cases hc2 : th2 ≠ 0 ∧ ch = th2
              · simp only [if_pos hc2]
                rcases twoFloatObs_keys parts 2 3
                    (addObs (⟨some ch, some rf, []⟩ : Reading) "bat_th_2"
                      bat)
                    "temp_2" "humid_2"
                    ["bat_th_1", "temp_1", "humid_1", "bat_th_2", "temp_2",
                     "humid_2", "bat_iss", "temperature", "humidity"]
                    (by omega) (by omega) (by simp [addObs]) (by simp)
                    (by simp)
                  with ⟨r, heq, hch, hrf, hobs⟩ | ⟨r, heq, hch, hrf, hobs⟩
                · simp only [heq]
                  refine Or.inl ⟨r, rfl, ?_,
                    fun p hp => Or.inr ⟨hT, hobs p hp⟩⟩
                  simp only [addObs, emptyReading] at hch hrf
                  rw [hch, hrf]
                  simp
                · simp only [heq]
                  exact Or.inr ⟨r, rfl, fun p hp => Or.inr ⟨hT, hobs p hp⟩⟩
              · simp only [if_neg hc2]
                rcases twoFloatObs_keys parts 2 3
                    (addObs (⟨some ch, some rf, []⟩ : Reading) "bat_iss" bat)
                    "temperature" "humidity"
                    ["bat_th_1", "temp_1", "humid_1", "bat_th_2", "temp_2",
                     "humid_2", "bat_iss", "temperature", "humidity"]
                    (by omega) (by omega) (by simp [addObs]) (by simp)
                    (by simp)
                  with ⟨r, heq, hch, hrf, hobs⟩ | ⟨r, heq, hch, hrf, hobs⟩
                · simp only [heq]
                  refine Or.inl ⟨r, rfl, ?_,
                    fun p hp => Or.inr ⟨hT, hobs p hp⟩⟩
                  simp only [addObs, emptyReading] at hch hrf
                  rw [hch, hrf]
                  simp
                · simp only [heq]
                  exact Or.inr ⟨r, rfl, fun p hp => Or.inr ⟨hT, hobs p hp⟩⟩
          · simp only [if_neg hT]
            exact Or.inl ⟨_, rfl, by simp, by simp⟩
  · simp only [if_neg h5]
    exact Or.inl ⟨_, rfl, by simp [emptyReading], by simp [emptyReading]⟩

lemma parseLMO_spec (parts : List String) (t0 : String) :
    (∃ d, parseLMO parts t0 = Except.ok d ∧
        (d.channel.isSome ↔ d.rf_signal.isSome) ∧
        ∀ p ∈ d.obs,
          p.1 = "bat_soil_leaf" ∨
          (t0 = "L" ∧ ∃ sfx, p.1 = "leaf_wetness_" ++ sfx) ∨
          (t0 = "M" ∧ ∃ sfx, p.1 = "soil_moisture_" ++ sfx) ∨
          (t0 = "O" ∧ ∃ sfx, p.1 = "soil_temp_" ++ sfx)) ∨
    (∃ d, parseLMO parts t0 = Except.error (StepErr.valueErr d) ∧
        ∀ p ∈ d.obs,
          p.1 = "bat_soil_leaf" ∨
          (t0 = "L" ∧ ∃ sfx, p.1 = "leaf_wetness_" ++ sfx) ∨
          (t0 = "M" ∧ ∃ sfx, p.1 = "soil_moisture_" ++ sfx) ∨
          (t0 = "O" ∧ ∃ sfx, p.1 = "soil_temp_" ++ sfx)) := by
  simp only [parseLMO]
  by_cases h5 : 5 ≤ parts.length
  · simp only [if_pos h5]
    obtain ⟨s1, hs1⟩ := pyGet_ok_of_lt (show 1 < parts.length by omega)
    simp only [hs1]
    cases hi1 : pyInt s1 with
    | none =>
      simp only [toIntE, hi1]
      exact Or.inr ⟨_, rfl, by simp [emptyReading]⟩
    | some ch =>
      simp only [toIntE, hi1]
      obtain ⟨s4, hs4⟩ := pyGet_ok_of_lt (show 4 < parts.length by omega)
      simp only [hs4]
      cases hf4 : pyFloat s4 with
      | none =>
        simp only [toFloatE, hf4]
        exact Or.inr ⟨_, rfl, by simp⟩
      | some rf =>
        simp only [toFloatE, hf4]
        obtain ⟨bat, hbat⟩ := batFlag_ok parts 5
        simp only [hbat]
        obtain ⟨s2, hs2⟩ := pyGet_ok_of_lt (show 2 < parts.length by omega)
        obtain ⟨s3, hs3⟩ := pyGet_ok_of_lt (show 3 < parts.length by omega)
        by_cases hL : t0 = "L"
        · simp only [if_pos hL, hs2, hs3]
          cases hf3 : pyFloat s3 with
          | none =>
            simp only [toFloatE, hf3]
            exact Or.inr ⟨_, rfl, by simp⟩
          | some v =>
            simp only [toFloatE, hf3]
            refine Or.inl ⟨_, rfl, by simp [addObs], ?_⟩
            intro p hp
            simp only [addObs, List.mem_append, List.mem_cons,
              List.mem_singleton, List.not_mem_nil, or_false] at hp
            rcases hp with hp | hp <;> subst hp
            · exact Or.inl rfl
            · exact Or.inr (Or.inl ⟨hL, s2, rfl⟩)
        · simp only [if_neg hL]
          by_cases hM : t0 = "M"
          · simp only [if_pos hM, hs2, hs3]
            cases hf3 : pyFloat s3 with
            | none =>
              simp only [toFloatE, hf3]
              exact Or.inr ⟨_, rfl, by simp⟩
            | some v =>
              simp only [toFloatE, hf3]
              refine Or.inl ⟨_, rfl, by simp [addObs], ?_⟩
              intro p hp
              simp only [addObs, List.mem_append, List.mem_cons,
                List.mem_singleton, List.not_mem_nil, or_false] at hp
              rcases hp with hp | hp <;> subst hp
              · exact Or.inl rfl
              · exact Or.inr (Or.inr (Or.inl ⟨hM, s2, rfl⟩))
          · simp only [if_neg hM]
            by_cases hO : t0 = "O"
            · simp only [if_pos hO, hs2, hs3]
              cases hf3 : pyFloat s3 with
              | none =>
                simp only [toFloatE, hf3]
                exact Or.inr ⟨_, rfl, by simp⟩
              | some v =>
                simp only [toFloatE, hf3]
                refine Or.inl ⟨_, rfl, by simp [addObs], ?_⟩
                intro p hp
                simp only [addObs, List.mem_append, List.mem_cons,
                  List.mem_singleton, List.not_mem_nil, or_false] at hp
                rcases hp with hp | hp <;> subst hp
                · exact Or.inl rfl
                · exact Or.inr (Or.inr (Or.inr ⟨hO, s2, rfl⟩))
            · simp only [if_neg hO]
              exact Or.inl ⟨_, rfl, by simp, by simp⟩
  · simp only [if_neg h5]
    exact Or.inl ⟨_, rfl, by simp [emptyReading], by simp [emptyReading]⟩

lemma parseRSUP_spec (parts : List String) (t0 : String) :
    (∃ d, parseRSUP parts t0 = Except.ok d ∧
        (d.channel.isSome ↔ d.rf_signal.isSome) ∧
        ∀ p ∈ d.obs,
          p.1 = "bat_iss" ∨
          (t0 = "R" ∧ p.1 = "rain_count") ∨
          (t0 = "S" ∧ p.1 = "solar_radiation") ∨
          (t0 = "U" ∧ p.1 = "uv") ∨
          (t0 = "P" ∧ p.1 = "solar_power")) ∨
    (∃ d, parseRSUP parts t0 = Except.error (StepErr.valueErr d) ∧
        ∀ p ∈ d.obs,
          p.1 = "bat_iss" ∨
          (t0 = "R" ∧ p.1 = "rain_count") ∨
          (t0 = "S" ∧ p.1 = "solar_radiation") ∨
          (t0 = "U" ∧ p.1 = "uv") ∨
          (t0 = "P" ∧ p.1 = "solar_power")) := by
  simp only [parseRSUP]
  by_cases h4 : 4 ≤ parts.length
  · simp only [if_pos h4]
    obtain ⟨s1, hs1⟩ := pyGet_ok_of_lt (show 1 < parts.length by omega)
    simp only [hs1]
    cases hi1 : pyInt s1 with
    | none =>
      simp only [toIntE, hi1]
      exact Or.inr ⟨_, rfl, by simp [emptyReading]⟩
    | some ch =>
      simp only [toIntE, hi1]
      obtain ⟨s3, hs3⟩ := pyGet_ok_of_lt (show 3 < parts.length by omega)
      simp only [hs3]
      cases hf3 : pyFloat s3 with
      | none =>
        simp only [toFloatE, hf3]
        exact Or.inr ⟨_, rfl, by simp⟩
      | some rf =>
        simp only [toFloatE, hf3]
        obtain ⟨bat, hbat⟩ := batFlag_ok parts 4
        simp only [hbat]
        obtain ⟨s2, hs2⟩ := pyGet_ok_of_lt (show 2 < parts.length by omega)
        simp only [hs2]
        by_cases hR : t0 = "R"
        · simp only [if_pos hR]
          cases hi2 : pyInt s2 with
          | none =>
            simp only [toIntE, hi2]
            exact Or.inr ⟨_, rfl, by simp⟩
          | some rc =>
            simp only [toIntE, hi2]
            refine Or.inl ⟨_, rfl, by simp [addObs], ?_⟩
            intro p hp
            simp only [addObs, List.mem_append, List.mem_cons,
              List.mem_singleton, List.not_mem_nil, or_false] at hp
            rcases hp with hp | hp <;> subst hp
            · exact Or.inl rfl
            · exact Or.inr (Or.inl ⟨hR, rfl⟩)
        · simp only [if_neg hR]
          by_cases hS : t0 = "S"
          · simp only [if_pos hS]
            cases hf2 : pyFloat s2 with
            | none =>
              simp only [toFloatE, hf2]
              exact Or.inr ⟨_, rfl, by simp⟩
            | some v =>
              simp only [toFloatE, hf2]
              refine Or.inl ⟨_, rfl, by simp [addObs], ?_⟩
              intro p hp
              simp only [addObs, List.mem_append, List.mem_cons,
                List.mem_singleton, List.not_mem_nil, or_false] at hp
              rcases hp with hp | hp <;> subst hp
              · exact Or.inl rfl
              · exact Or.inr (Or.inr (Or.inl ⟨hS, rfl⟩))
          · simp only [if_neg hS]
            by_cases hU : t0 = "U"
            · simp only [if_pos hU]
              cases hf2 : pyFloat s2 with
              | none =>
                simp only [toFloatE, hf2]
                exact Or.inr ⟨_, rfl, by simp⟩
              | some v =>
                simp only [toFloatE, hf2]
                refine Or.inl ⟨_, rfl, by simp [addObs], ?_⟩
                intro p hp
                simp only [addObs, List.mem_append, List.mem_cons,
                  List.mem_singleton, List.not_mem_nil, or_false] at hp
                rcases hp with hp | hp <;> subst hp
                · exact Or.inl rfl
                · exact Or.inr (Or.inr (Or.inr (Or.inl ⟨hU, rfl⟩)))
            · simp only [if_neg hU]
              by_cases hP : t0 = "P"
              · simp only [if_pos hP]
                cases hf2 : pyFloat s2 with
                | none =>
                  simp only [toFloatE, hf2]
                  exact Or.inr ⟨_, rfl, by simp⟩
                | some v =>
                  simp only [toFloatE, hf2]
                  refine Or.inl ⟨_, rfl, by simp [addObs], ?_⟩
                  intro p hp
                  simp only [addObs, List.mem_append, List.mem_cons,
                    List.mem_singleton, List.not_mem_nil, or_false] at hp
                  rcases hp with hp | hp <;> subst hp
                  · exact Or.inl rfl
                  · exact Or.inr (Or.inr (Or.inr (Or.inr ⟨hP, rfl⟩)))
              · simp only [if_neg hP]
                exact Or.inl ⟨_, rfl, by simp, by simp⟩
  · simp only [if_neg h4]
    exact Or.inl ⟨_, rfl, by simp [emptyReading], by simp [emptyReading]⟩

lemma parseB_spec (parts : List String) :
    (∃ d, parseB parts = Except.ok d ∧ d.channel = some 0 ∧
        d.rf_signal = some 0 ∧
        ∀ p ∈ d.obs,
          p.1 ∈ (["in_temp", "pressure", "pct_good"] : List String)) ∨
    (∃ d, parseB parts = Except.error (StepErr.valueErr d) ∧
        d.channel = some 0 ∧ d.rf_signal = some 0 ∧
        ∀ p ∈ d.obs,
          p.1 ∈ (["in_temp", "pressure", "pct_good"] : List String)) := by
  simp only [parseB]
  by_cases h3 : 3 ≤ parts.length
  · simp only [if_pos h3]
    rcases twoFloatObs_spec parts 1 2
        { channel := some 0, rf_signal := some 0, obs := [] }
        "in_temp" "pressure" (by omega) (by omega) with
      ⟨v1, v2, heq⟩ | ⟨e, heq, he⟩
    · simp only [heq]
      by_cases h4 : 4 ≤ parts.length
      · simp only [if_pos h4]
        obtain ⟨s3, hs3⟩ := pyGet_ok_of_lt (show 3 < parts.length by omega)
        simp only [hs3]
        cases hf3 : pyFloat (stripPct s3) with
        | none =>
          simp only [toFloatE, hf3]
          exact Or.inr ⟨_, rfl, rfl, rfl, by simp [addObs]⟩
        | some v3 =>
          simp only [toFloatE, hf3]
          exact Or.inl ⟨_, rfl, rfl, rfl, by simp [addObs]⟩
      · simp only [if_neg h4]
        exact Or.inl ⟨_, rfl, rfl, rfl, by simp [addObs]⟩
    · simp only [heq]
      rcases he with rfl | ⟨v1, rfl⟩
      · exact Or.inr ⟨_, rfl, rfl, rfl, by simp⟩
      · exact Or.inr ⟨_, rfl, rfl, rfl, by simp [addObs]⟩
  · simp only [if_neg h3]
    exact Or.inl ⟨_, rfl, rfl, rfl, by simp⟩

lemma pySplitChar_ne_nil (sep : Char) (l : List Char) :
    pySplitChar sep l ≠ [] := by
  cases l with
  | nil => simp [pySplitChar]
  | cons c cs =>
    simp only [pySplitChar]
    cases pySplitChar sep cs with
    | nil => simp
    | cons t ts => by_cases hc : c = sep <;> simp [hc]

lemma pyTokens_ne_nil (raw : String) : pyTokens raw ≠ [] := by
  simp only [pyTokens, ne_eq, List.map_eq_nil_iff]
  exact pySplitChar_ne_nil ' ' raw.toList

lemma parseTry_spec (t0 : String) (rest : List String) (iss th1 th2 : Int) :
    (∃ d, parseTry (t0 :: rest) iss th1 th2 = Except.ok d ∧
        (d.channel.isSome ↔ d.rf_signal.isSome) ∧
        (t0 = "B" → d.channel = some 0 ∧ d.rf_signal = some 0) ∧
        (∀ p ∈ d.obs, tagLegit t0 p.1)) ∨
    (∃ d, parseTry (t0 :: rest) iss th1 th2 =
          Except.error (StepErr.valueErr d) ∧
        (t0 = "B" → d.channel = some 0 ∧ d.rf_signal = some 0) ∧
        (∀ p ∈ d.obs, tagLegit t0 p.1)) := by
  have h0 : pyGet (t0 :: rest) 0 = Except.ok t0 := by simp [pyGet]
  simp only [parseTry, h0]
  by_cases hB : t0 = "B"
  · simp only [if_pos hB]
    rcases parseB_spec (t0 :: rest) with
      ⟨d, heq, hch, hrf, hobs⟩ | ⟨d, heq, hch, hrf, hobs⟩
    · refine Or.inl ⟨d, heq, by rw [hch, hrf]; simp, fun _ => ⟨hch, hrf⟩,
        fun p hp _ => Or.inl ⟨hB, hobs p hp⟩⟩
    · exact Or.inr ⟨d, heq, fun _ => ⟨hch, hrf⟩,
        fun p hp _ => Or.inl ⟨hB, hobs p hp⟩⟩
  · simp only [if_neg hB]
    cases hWT : pyInStr t0 "WT" with
    | true =>
      simp only [if_pos rfl]
      rcases parseWT_spec (t0 :: rest) t0 iss th1 th2 with
        ⟨d, heq, hdi, hobs⟩ | ⟨d, heq, hobs⟩
      · refine Or.inl ⟨d, heq, hdi, fun h => absurd h hB, ?_⟩
        intro p hp _
        rcases hobs p hp with ⟨hW, hk⟩ | ⟨hT, hk⟩
        · exact Or.inr (Or.inl ⟨hW, hk⟩)
        · exact Or.inr (Or.inr (Or.inl ⟨hT, hk⟩))
      · refine Or.inr ⟨d, heq, fun h => absurd h hB, ?_⟩
        intro p hp _
        rcases hobs p hp with ⟨hW, hk⟩ | ⟨hT, hk⟩
        · exact Or.inr (Or.inl ⟨hW, hk⟩)
        · exact Or.inr (Or.inr (Or.inl ⟨hT, hk⟩))
    | false =>
      simp only [hWT, Bool.false_eq_true, if_false]
      cases hLMO : pyInStr t0 "LMO" with
      | true =>
        simp only [if_pos rfl]
        have obsLegit : ∀ (k : String), (k = "bat_soil_leaf" ∨
            (t0 = "L" ∧ ∃ sfx, k = "leaf_wetness_" ++ sfx) ∨
            (t0 = "M" ∧ ∃ sfx, k = "soil_moisture_" ++ sfx) ∨
            (t0 = "O" ∧ ∃ sfx, k = "soil_temp_" ++ sfx)) → tagLegit t0 k := by
          intro k hk hten
          simp only [List.mem_cons, List.not_mem_nil, or_false] at hten
          rcases hk with hk | ⟨hL, sfx, hk⟩ | ⟨hM, sfx, hk⟩ | ⟨hO, sfx, hk⟩
          · rcases hten with rfl | rfl | rfl | rfl | rfl | rfl | rfl | rfl |
              rfl | rfl
            · exact absurd rfl hB
            · exact absurd hWT (by decide)
            · exact absurd hWT (by decide)
            · exact Or.inr (Or.inr (Or.inr (Or.inl ⟨rfl, Or.inl hk⟩)))
            · exact Or.inr (Or.inr (Or.inr (Or.inr (Or.inl
                ⟨rfl, Or.inl hk⟩))))
            · exact Or.inr (Or.inr (Or.inr (Or.inr (Or.inr (Or.inl
                ⟨rfl, Or.inl hk⟩)))))
            · exact absurd hLMO (by decide)
            · exact absurd hLMO (by decide)
            · exact absurd hLMO (by decide)
            · exact absurd hLMO (by decide)
          · exact Or.inr (Or.inr (Or.inr (Or.inl ⟨hL, Or.inr ⟨sfx, hk⟩⟩)))
          · exact Or.inr (Or.inr (Or.inr (Or.inr (Or.inl
              ⟨hM, Or.inr ⟨sfx, hk⟩⟩))))
          · exact Or.inr (Or.inr (Or.inr (Or.inr (Or.inr (Or.inl
              ⟨hO, Or.inr ⟨sfx, hk⟩⟩)))))
        rcases parseLMO_spec (t0 :: rest) t0 with
          ⟨d, heq, hdi, hobs⟩ | ⟨d, heq, hobs⟩
        · exact Or.inl ⟨d, heq, hdi, fun h => absurd h hB,
            fun p hp => obsLegit p.1 (hobs p hp)⟩
        · exact Or.inr ⟨d, heq, fun h => absurd h hB,
            fun p hp => obsLegit p.1 (hobs p hp)⟩
      | false =>
        simp only [hLMO, Bool.false_eq_true, if_false]
        cases hRSUP : pyInStr t0 "RSUP" with
        | true =>
          simp only [if_pos rfl]
          have obsLegit : ∀ (k : String), (k = "bat_iss" ∨
              (t0 = "R" ∧ k = "rain_count") ∨
              (t0 = "S" ∧ k = "solar_radiation") ∨
              (t0 = "U" ∧ k = "uv") ∨
              (t0 = "P" ∧ k = "solar_power")) → tagLegit t0 k := by
            intro k hk hten
            simp only [List.mem_cons, List.not_mem_nil, or_false] at hten
            rcases hk with hk | ⟨hR, hk⟩ | ⟨hS, hk⟩ | ⟨hU, hk⟩ | ⟨hP, hk⟩
            · rcases hten with rfl | rfl | rfl | rfl | rfl | rfl | rfl |
                rfl | rfl | rfl
              · exact absurd rfl hB
              · exact absurd hWT (by decide)
              · exact absurd hWT (by decide)
              · exact absurd hLMO (by decide)
              · exact absurd hLMO (by decide)
              · exact absurd hLMO (by decide)
              · exact Or.inr (Or.inr (Or.inr (Or.inr (Or.inr (Or.inr
                  (Or.inl ⟨rfl, by simp [hk]⟩))))))
              · exact Or.inr (Or.inr (Or.inr (Or.inr (Or.inr (Or.inr
                  (Or.inr (Or.inl ⟨rfl, by simp [hk]⟩)))))))
              · exact Or.inr (Or.inr (Or.inr (Or.inr (Or.inr (Or.inr
                  (Or.inr (Or.inr (Or.inl ⟨rfl, by simp [hk]⟩))))))))
              · exact Or.inr (Or.inr (Or.inr (Or.inr (Or.inr (Or.inr
                  (Or.inr (Or.inr (Or.inr ⟨rfl, by simp [hk]⟩))))))))
            · exact Or.inr (Or.inr (Or.inr (Or.inr (Or.inr (Or.inr
                (Or.inl ⟨hR, by simp [hk]⟩))))))
            · exact Or.inr (Or.inr (Or.inr (Or.inr (Or.inr (Or.inr
                (Or.inr (Or.inl ⟨hS, by simp [hk]⟩)))))))
            · exact Or.inr (Or.inr (Or.inr (Or.inr (Or.inr (Or.inr
                (Or.inr (Or.inr (Or.inl ⟨hU, by simp [hk]⟩))))))))
            · exact Or.inr (Or.inr (Or.inr (Or.inr (Or.inr (Or.inr
                (Or.inr (Or.inr (Or.inr ⟨hP, by simp [hk]⟩))))))))
          rcases parseRSUP_spec (t0 :: rest) t0 with
            ⟨d, heq, hdi, hobs⟩ | ⟨d, heq, hobs⟩
          · exact Or.inl ⟨d, heq, hdi, fun h => absurd h hB,
              fun p hp => obsLegit p.1 (hobs p hp)⟩
          · exact Or.inr ⟨d, heq, fun h => absurd h hB,
              fun p hp => obsLegit p.1 (hobs p hp)⟩
        | false =>
          simp only [hRSUP, Bool.false_eq_true, if_false]
          exact Or.inl ⟨emptyReading, rfl, by simp [emptyReading],
            fun h => absurd h hB, by simp [emptyReading]⟩

lemma parse_readings_cases (raw : String) (iss th1 th2 : Int)
    (hraw : raw ≠ "") (d : Reading)
    (h : parse_readings raw iss th1 th2 = Except.ok (some d)) :
    parseTry (pyTokens raw) iss th1 th2 = Except.ok d ∨
    parseTry (pyTokens raw) iss th1 th2 =
      Except.error (StepErr.valueErr d) := by
  simp only [parse_readings, if_neg hraw] at h
  cases hx : parseTry (pyTokens raw) iss th1 th2 with
  | ok d2 =>
    rw [hx] at h
    simp only [Except.ok.injEq, Option.some.injEq] at h
    subst h
    exact Or.inl rfl
  | error e =>
    cases e with
    | valueErr d2 =>
      rw [hx] at h
      simp only [Except.ok.injEq, Option.some.injEq] at h
      subst h
      exact Or.inr rfl
    | indexErr =>
      rw [hx] at h
      simp at h

/-- Claim C10: the line parser is total — for every input string (including
empty strings, leading/repeated spaces, multi-character first tokens, and
non-numeric tokens anywhere) `parse_readings` returns a result without any
uncaught exception: every list index it takes is guarded by a preceding
token-count check (no `IndexError` reaches the result) and every
numeric-conversion failure is caught internally (a `ValueError` is converted
into the partial `data` dict). -/
theorem C10_total :
    ∀ (raw : String) (iss th1 th2 : Int),
      ∃ v, parse_readings raw iss th1 th2 = Except.ok v := by
  intro raw iss th1 th2
  by_cases hraw : raw = ""
  · exact ⟨none, by simp [parse_readings, hraw]⟩
  · simp only [parse_readings, if_neg hraw]
    obtain ⟨t0, rest, hcons⟩ := List.exists_cons_of_ne_nil (pyTokens_ne_nil raw)
    rw [hcons]
    rcases parseTry_spec t0 rest iss th1 th2 with ⟨d, hd, _⟩ | ⟨d, hd, _⟩
    · exact ⟨some d, by rw [hd]⟩
    · exact ⟨some d, by rw [hd]⟩

/-- Claim C5 counterexample: on the line `"W 1 2 3 x"` the parser sets
`channel` from token 1, then `float("x")` raises a caught `ValueError`, and
the returned Reading has `channel` set but `rf_signal` unset — refuting the
claimed both-or-neither invariant. -/
theorem C5_counterexample :
    parse_readings "W 1 2 3 x" 1 0 0 =
      Except.ok (some { channel := some 1, rf_signal := none, obs := [] }) ∧
    (Option.isSome (some (1 : Int)) = true ∧
     Option.isSome (none : Option Rat) = false) := by
  constructor
  · rfl
  · decide

/-- Claim C5 as amended: a Reading whose parse completes without a caught
numeric-conversion failure has `channel` and `rf_signal` either both set or
both unset (a conversion failure can leave `channel` set and `rf_signal`
unset); base-station `B` lines always produce `channel = 0` and
`rf_signal = 0`; and on every produced Reading, every populated observation
key is legitimate for the line's leading record tag whenever that tag is one
of the ten record tags. -/
theorem C5_amended :
    (∀ (raw : String) (iss th1 th2 : Int) (d : Reading),
      parseTry (pyTokens raw) iss th1 th2 = Except.ok d →
      (d.channel.isSome ↔ d.rf_signal.isSome)) ∧
    (∀ (raw : String) (iss th1 th2 : Int) (d : Reading),
      raw ≠ "" → (pyTokens raw).headD "" = "B" →
      parse_readings raw iss th1 th2 = Except.ok (some d) →
      d.channel = some 0 ∧ d.rf_signal = some 0) ∧
    (∀ (raw : String) (iss th1 th2 : Int) (d : Reading),
      parse_readings raw iss th1 th2 = Except.ok (some d) →
      ∀ p ∈ d.obs, tagLegit ((pyTokens raw).headD "") p.1) := by
  refine ⟨?_, ?_, ?_⟩
  · intro raw iss th1 th2 d h
    obtain ⟨t0, rest, hcons⟩ :=
      List.exists_cons_of_ne_nil (pyTokens_ne_nil raw)
    rw [hcons] at h
    rcases parseTry_spec t0 rest iss th1 th2 with
      ⟨d2, hd2, hdi, _⟩ | ⟨d2, hd2, _⟩
    · rw [hd2] at h
      injection h with h
      subst h
      exact hdi
    · rw [hd2] at h
      simp at h
  · intro raw iss th1 th2 d hraw hhead h
    obtain ⟨t0, rest, hcons⟩ :=
      List.exists_cons_of_ne_nil (pyTokens_ne_nil raw)
    rw [hcons] at hhead
    simp only [List.headD_cons] at hhead
    rcases parse_readings_cases raw iss th1 th2 hraw d h with hc | hc <;>
      rw [hcons] at hc
    · rcases parseTry_spec t0 rest iss th1 th2 with
        ⟨d2, hd2, _, hBf, _⟩ | ⟨d2, hd2, hBf, _⟩
      · rw [hc] at hd2
        injection hd2 with hd2
        subst hd2
        exact hBf hhead
      · rw [hc] at hd2
        simp at hd2
    · rcases parseTry_spec t0 rest iss th1 th2 with
        ⟨d2, hd2, _, hBf, _⟩ | ⟨d2, hd2, hBf, _⟩
      · rw [hc] at hd2
        simp at hd2
      · rw [hc] at hd2
        injection hd2 with hd2
        injection hd2 with hd2
        subst hd2
        exact hBf hhead
  · intro raw iss th1 th2 d h p hp
    by_cases hraw : raw = ""
    · rw [hraw] at h
      simp [parse_readings] at h
    · obtain ⟨t0, rest, hcons⟩ :=
        List.exists_cons_of_ne_nil (pyTokens_ne_nil raw)
      rw [hcons, List.headD_cons]
      rcases parse_readings_cases raw iss th1 th2 hraw d h with hc | hc <;>
        rw [hcons] at hc
      · rcases parseTry_spec t0 rest iss th1 th2 with
          ⟨d2, hd2, _, _, hobs⟩ | ⟨d2, hd2, _, _⟩
        · rw [hc] at hd2
          injection hd2 with hd2
          subst hd2
          exact hobs p hp
        · rw [hc] at hd2
          simp at hd2
      · rcases parseTry_spec t0 rest iss th1 th2 with
          ⟨d2, hd2, _, _, _⟩ | ⟨d2, hd2, _, hobs⟩
        · rw [hc] at hd2
          simp at hd2
        · rw [hc] at hd2
          injection hd2 with hd2
          injection hd2 with hd2
          subst hd2
          exact hobs p hp

/-- Witness for the amended claim C5 at the lines `"W 1 7 180 -65"`,
`"B 20 1012"` and `"R 1 200 -65"`. -/
theorem C5_amended_witness :
    (((⟨some 1, some (-65), [("bat_iss", 0), ("wind_speed", 7),
        ("wind_dir", 180)]⟩ : Reading).channel.isSome ↔
      (⟨some 1, some (-65), [("bat_iss", 0), ("wind_speed", 7),
        ("wind_dir", 180)]⟩ : Reading).rf_signal.isSome)) ∧
    ((⟨some 0, some 0, [("in_temp", 20), ("pressure", 1012)]⟩ :
        Reading).channel = some 0 ∧
     (⟨some 0, some 0, [("in_temp", 20), ("pressure", 1012)]⟩ :
        Reading).rf_signal = some 0) ∧
    tagLegit ((pyTokens "R 1 200 -65").headD "") "rain_count" :=
  ⟨C5_amended.1 "W 1 7 180 -65" 1 0 0 _ (by rfl),
   C5_amended.2.1 "B 20 1012" 1 0 0 _ (by decide) (by rfl) (by rfl),
   C5_amended.2.2 "R 1 200 -65" 1 0 0
     ⟨some 1, some (-65), [("bat_iss", 0), ("rain_count", 200)]⟩ (by rfl)
     ("rain_count", 200) (by simp)⟩

/-- Claim C4 counterexample: the malformed line `"W 1 2"` (too few tokens)
does yield a Reading — `parse_readings` returns the `data` dict with
`channel`/`rf_signal` unset rather than the no-reading result `none` (which
it returns only for empty input), so the claim's "yields no Reading" is
false at this input. -/
theorem C4_counterexample :
    parse_readings "W 1 2" 1 0 0 =
      Except.ok (some { channel := none, rf_signal := none, obs := [] }) ∧
    Except.ok (some { channel := none, rf_signal := none, obs := [] }) ≠
      (Except.ok none : Except StepErr (Option Reading)) := by
  exact ⟨by rfl, by simp⟩

/-- A `parseTry` success propagates to `parse_readings` (the `try` block
completed, so the `data` dict is returned). -/
lemma parse_readings_of_try_ok {raw : String} {iss th1 th2 : Int}
    {d : Reading} (hraw : raw ≠ "")
    (h : parseTry (pyTokens raw) iss th1 th2 = Except.ok d) :
    parse_readings raw iss th1 th2 = Except.ok (some d) := by
  simp only [parse_readings, if_neg hraw, h]

/-- Claim C4 as amended: malformed lines never raise (the parser is total,
so the condition is non-fatal and the caller's loop continues), but they
yield a Reading rather than no Reading, with these universal laws: a `B`
line with fewer than 3 tokens yields the Reading with `channel = 0` and
`rf_signal = 0` (both are set before the token-count check) and no
observations; a line dispatching to the `WT` or `LMO` group with fewer than
5 tokens, or to the `RSUP` group with fewer than 4 tokens, yields the empty
Reading; a line whose leading token matches no group (unknown tag or comment
line) yields the empty Reading; and a numeric-conversion failure yields a
Reading holding exactly the fields parsed before the failure, as at
`"W 1 x 180 -65"`. -/
theorem C4_amended :
    (∀ (raw : String) (iss th1 th2 : Int),
      ∃ v, parse_readings raw iss th1 th2 = Except.ok v) ∧
    (∀ (raw : String) (iss th1 th2 : Int),
      raw ≠ "" → (pyTokens raw).headD "" = "B" →
      (pyTokens raw).length < 3 →
      parse_readings raw iss th1 th2 =
        Except.ok (some ⟨some 0, some 0, []⟩)) ∧
    (∀ (raw : String) (iss th1 th2 : Int),
      raw ≠ "" → (pyTokens raw).headD "" ≠ "B" →
      (pyInStr ((pyTokens raw).headD "") "WT" = true ∨
        pyInStr ((pyTokens raw).headD "") "LMO" = true) →
      (pyTokens raw).length < 5 →
      parse_readings raw iss th1 th2 = Except.ok (some emptyReading)) ∧
    (∀ (raw : String) (iss th1 th2 : Int),
      raw ≠ "" → (pyTokens raw).headD "" ≠ "B" →
      pyInStr ((pyTokens raw).headD "") "WT" = false →
      pyInStr ((pyTokens raw).headD "") "LMO" = false →
      pyInStr ((pyTokens raw).headD "") "RSUP" = true →
      (pyTokens raw).length < 4 →
      parse_readings raw iss th1 th2 = Except.ok (some emptyReading)) ∧
    (∀ (raw : String) (iss th1 th2 : Int),
      raw ≠ "" → (pyTokens raw).headD "" ≠ "B" →
      pyInStr ((pyTokens raw).headD "") "WT" = false →
      pyInStr ((pyTokens raw).headD "") "LMO" = false →
      pyInStr ((pyTokens raw).headD "") "RSUP" = false →
      parse_readings raw iss th1 th2 = Except.ok (some emptyReading)) ∧
    parse_readings "W 1 x 180 -65" 1 0 0 =
      Except.ok (some ⟨some 1, some (-65), [("bat_iss", 0)]⟩) := by
  refine ⟨?_, ?_, ?_, ?_, ?_, by rfl⟩
  · intro raw iss th1 th2
    by_cases hraw : raw = ""
    · exact ⟨none, by simp [parse_readings, hraw]⟩
    · simp only [parse_readings, if_neg hraw]
      obtain ⟨t0, rest, hcons⟩ :=
        List.exists_cons_of_ne_nil (pyTokens_ne_nil raw)
      rw [hcons]
      rcases parseTry_spec t0 rest iss th1 th2 with ⟨d, hd, _⟩ | ⟨d, hd, _⟩
      · exact ⟨some d, by rw [hd]⟩
      · exact ⟨some d, by rw [hd]⟩
  · intro raw iss th1 th2 hraw hhead hlen
    obtain ⟨t0, rest, hcons⟩ :=
      List.exists_cons_of_ne_nil (pyTokens_ne_nil raw)
    rw [hcons, List.headD_cons] at hhead
    subst hhead
    rw [hcons, List.length_cons] at hlen
    apply parse_readings_of_try_ok hraw
    rw [hcons]
    have h0 : pyGet ("B" :: rest) 0 = Except.ok "B" := by simp [pyGet]
    simp only [parseTry, h0, if_pos rfl, if_true]
    simp only [parseB]
    rw [if_neg (by simp only [List.length_cons]; omega)]
  · intro raw iss th1 th2 hraw hB hsub hlen
    obtain ⟨t0, rest, hcons⟩ :=
      List.exists_cons_of_ne_nil (pyTokens_ne_nil raw)
    rw [hcons, List.headD_cons] at hB hsub
    rw [hcons, List.length_cons] at hlen
    apply parse_readings_of_try_ok hraw
    rw [hcons]
    have h0 : pyGet (t0 :: rest) 0 = Except.ok t0 := by simp [pyGet]
    simp only [parseTry, h0, if_neg hB]
    by_cases hWT : pyInStr t0 "WT" = true
    · simp only [hWT, if_pos rfl, if_true]
      simp only [parseWT]
      rw [if_neg (by simp only [List.length_cons]; omega)]
    · have hWT2 : pyInStr t0 "WT" = false := by
        revert hWT
        cases pyInStr t0 "WT" <;> simp
      rcases hsub with hcase | hLMO
      · exact absurd hcase hWT
      · simp only [hWT2, Bool.false_eq_true, if_false, hLMO, if_pos rfl,
          if_true]
        simp only [parseLMO]
        rw [if_neg (by simp only [List.length_cons]; omega)]
  · intro raw iss th1 th2 hraw hB hWT hLMO hRSUP hlen
    obtain ⟨t0, rest, hcons⟩ :=
      List.exists_cons_of_ne_nil (pyTokens_ne_nil raw)
    rw [hcons, List.headD_cons] at hB hWT hLMO hRSUP
    rw [hcons, List.length_cons] at hlen
    apply parse_readings_of_try_ok hraw
    rw [hcons]
    have h0 : pyGet (t0 :: rest) 0 = Except.ok t0 := by simp [pyGet]
    simp only [parseTry, h0, if_neg hB, hWT, hLMO, Bool.false_eq_true,
      if_false, hRSUP, if_pos rfl, if_true]
    simp only [parseRSUP]
    rw [if_neg (by simp only [List.length_cons]; omega)]
  · intro raw iss th1 th2 hraw hB hWT hLMO hRSUP
    obtain ⟨t0, rest, hcons⟩ :=
      List.exists_cons_of_ne_nil (pyTokens_ne_nil raw)
    rw [hcons, List.headD_cons] at hB hWT hLMO hRSUP
    apply parse_readings_of_try_ok hraw
    rw [hcons]
    have h0 : pyGet (t0 :: rest) 0 = Except.ok t0 := by simp [pyGet]
    simp only [parseTry, h0, if_neg hB, hWT, hLMO, hRSUP,
      Bool.false_eq_true, if_false]

/-- Witness for the amended claim C4 at the short lines `"B 20"` (channel
and rf_signal forced to 0), `"W 1 2"` and `"R 1"` (empty Reading), and the
unknown-tag line `"Z 1 2 3"` (empty Reading). -/
theorem C4_amended_witness :
    parse_readings "B 20" 1 0 0 =
      Except.ok (some ⟨some 0, some 0, []⟩) ∧
    parse_readings "W 1 2" 1 0 0 = Except.ok (some emptyReading) ∧
    parse_readings "R 1" 1 0 0 = Except.ok (some emptyReading) ∧
    parse_readings "Z 1 2 3" 1 0 0 = Except.ok (some emptyReading) :=
  ⟨C4_amended.2.1 "B 20" 1 0 0 (by decide) (by decide) (by decide),
   C4_amended.2.2.1 "W 1 2" 1 0 0 (by decide) (by decide)
     (Or.inl (by decide)) (by decide),
   C4_amended.2.2.2.1 "R 1" 1 0 0 (by decide) (by decide) (by decide)
     (by decide) (by decide) (by decide),
   C4_amended.2.2.2.2.1 "Z 1 2 3" 1 0 0 (by decide) (by decide)
     (by decide) (by decide) (by decide)⟩

lemma retryFrom_all_none (attempt : Nat → Option String) (m : Nat) :
    ∀ (fuel n : Nat), m - n = fuel → n ≤ m →
      (∀ i, n ≤ i → i < m → attempt i = none) →
      retryFrom attempt m n = (RetryResult.retriesExceeded m, m) := by
  intro fuel
  induction fuel with
  | zero =>
    intro n hf hle _
    rw [retryFrom]
    have hnm : ¬ n < m := by omega
    have heq : n = m := by omega
    simp [hnm, heq]
  | succ fuel ih =>
    intro n hf hle hall
    have hlt : n < m := by omega
    rw [retryFrom]
    simp only [dif_pos hlt, hall n (Nat.le_refl n) hlt]
    exact ih (n + 1) (by omega) (by omega) (fun i h1 h2 => hall i (by omega) h2)

lemma retryFrom_hit (attempt : Nat → Option String) (m k : Nat)
    (buf : String) (hk : k < m) (hbuf : attempt k = some buf) :
    ∀ (fuel n : Nat), k - n = fuel → n ≤ k →
      (∀ i, n ≤ i → i < k → attempt i = none) →
      retryFrom attempt m n = (RetryResult.line buf, k) := by
  intro fuel
  induction fuel with
  | zero =>
    intro n hf hle _
    have heq : n = k := by omega
    subst heq
    rw [retryFrom]
    simp [show n < m by omega, hbuf]
  | succ fuel ih =>
    intro n hf hle hall
    have hlt : n < m := by omega
    rw [retryFrom]
    simp only [dif_pos hlt, hall n (Nat.le_refl n) (by omega)]
    exact ih (n + 1) (by omega) (by omega) (fun i h1 h2 => hall i (by omega) h2)

/-- Claim C6: a read attempt raising a transport-level error is retried up
to `max_tries` times with one `retry_wait` sleep per failed attempt (the
sleep count is the second component); if all `max_tries` attempts fail the
session reports the distinct `RetriesExceeded` condition (not a generic I/O
error, which never escapes); any attempt that succeeds returns its line
immediately. -/
theorem C6_retry :
    (∀ (attempt : Nat → Option String) (max_tries : Nat),
      (∀ i, i < max_tries → attempt i = none) →
      get_readings_with_retry attempt max_tries =
        (RetryResult.retriesExceeded max_tries, max_tries)) ∧
    (∀ (attempt : Nat → Option String) (max_tries k : Nat) (buf : String),
      k < max_tries → (∀ i, i < k → attempt i = none) →
      attempt k = some buf →
      get_readings_with_retry attempt max_tries = (RetryResult.line buf, k)) ∧
    (∀ (buf : String) (m : Nat),
      RetryResult.line buf ≠ RetryResult.retriesExceeded m) := by
  refine ⟨?_, ?_, ?_⟩
  · intro attempt m hall
    exact retryFrom_all_none attempt m m 0 (by omega) (Nat.zero_le m)
      (fun i _ h2 => hall i h2)
  · intro attempt m k buf hk hall hbuf
    exact retryFrom_hit attempt m k buf hk hbuf k 0 (by omega)
      (Nat.zero_le k) (fun i _ h2 => hall i h2)
  · intro buf m h
    cases h

/-- Witness for claim C6: all attempts fail with `max_tries = 3`, and a
transport that succeeds on the third attempt (after 2 failures). -/
theorem C6_retry_witness :
    get_readings_with_retry (fun _ => none) 3 =
      (RetryResult.retriesExceeded 3, 3) ∧
    get_readings_with_retry
      (fun i => if i = 2 then some "B 20 1012" else none) 10 =
      (RetryResult.line "B 20 1012", 2) :=
  ⟨C6_retry.1 (fun _ => none) 3 (fun _ _ => rfl),
   C6_retry.2.1 (fun i => if i = 2 then some "B 20 1012" else none) 10 2
     "B 20 1012" (by omega) (fun i hi => if_neg (by omega)) (if_pos rfl)⟩

/-- Claim C1: on the first reading with a rain count the delta is 0 and the
raw count becomes the baseline; on every subsequent one the delta is
`raw_count - last`, plus 128 when negative, and the raw count is stored as
the new baseline unconditionally; from a fresh state the raw counts 5, 10, 3
yield deltas 0, 5, 121, and the emitted rain amount is the delta times
`rain_per_tip` (0.254 for bucket type 0, 0.2 for bucket type 1). -/
theorem C1_rain_delta :
    rain_per_tip 0 = 0.254 ∧ rain_per_tip 1 = 0.2 ∧
    (∀ c : Rat, rain_delta none c = 0) ∧
    (∀ last c : Rat, rain_delta (some last) c =
      if c - last < 0 then c - last + 128 else c - last) ∧
    (∀ (b : Int) (last : Option Rat) (c : Rat),
      data_to_packet DEFAULT_SENSOR_MAP (rain_per_tip b) last
        [("rain_count", c)] =
        ([("rain", rain_delta last c * rain_per_tip b)], some c)) ∧
    (rain_delta none 5 = 0 ∧ rain_delta (some 5) 10 = 5 ∧
     rain_delta (some 10) 3 = 121) ∧
    (data_to_packet DEFAULT_SENSOR_MAP (rain_per_tip 1) none
        [("rain_count", 5)] = ([("rain", 0)], some 5) ∧
     data_to_packet DEFAULT_SENSOR_MAP (rain_per_tip 1) (some 5)
        [("rain_count", 10)] = ([("rain", 1)], some 10) ∧
     data_to_packet DEFAULT_SENSOR_MAP (rain_per_tip 1) (some 10)
        [("rain_count", 3)] = ([("rain", 121 * (0.2 : Rat))], some 3)) := by
  have hgen : ∀ (b : Int) (last : Option Rat) (c : Rat),
      data_to_packet DEFAULT_SENSOR_MAP (rain_per_tip b) last
        [("rain_count", c)] =
        ([("rain", rain_delta last c * rain_per_tip b)], some c) := by
    intro b last c
    have hl : (fun (p : String × Rat) =>
        (lookupSM DEFAULT_SENSOR_MAP p.1).map (fun k => (k, p.2)))
          ("rain_count", c) = some ("rain", c) := by rfl
    simp only [data_to_packet, List.filterMap_cons, List.filterMap_nil, hl]
    rw [List.find?_cons_of_pos _ (by rfl)]
    simp
  refine ⟨by norm_num [rain_per_tip], by norm_num [rain_per_tip],
    fun c => by simp [rain_delta], fun last c => rfl, hgen,
    ⟨by simp [rain_delta], by norm_num [rain_delta],
     by norm_num [rain_delta]⟩, ?_, ?_, ?_⟩
  · rw [hgen]
    norm_num [rain_delta, rain_per_tip]
  · rw [hgen]
    norm_num [rain_delta, rain_per_tip]
  · rw [hgen]
    norm_num [rain_delta, rain_per_tip]

lemma lookupSM_mem {m : List (String × String)} {k v : String}
    (h : lookupSM m k = some v) : ∃ pr ∈ m, pr.1 = k ∧ pr.2 = v := by
  simp only [lookupSM, Option.map_eq_some'] at h
  obtain ⟨pr, hfind, hv⟩ := h
  have hmem := List.mem_of_find?_eq_some hfind
  have hbeq := List.find?_some hfind
  exact ⟨pr, hmem, by simpa using hbeq, hv⟩

lemma rain_key_only {k : String}
    (h : lookupSM DEFAULT_SENSOR_MAP k = some "rain") : k = "rain_count" := by
  obtain ⟨pr, hmem, hk, hv⟩ := lookupSM_mem h
  simp only [DEFAULT_SENSOR_MAP, List.mem_cons, List.not_mem_nil,
    or_false] at hmem
  rcases hmem with rfl | rfl | rfl | rfl | rfl | rfl | rfl | rfl | rfl |
    rfl | rfl | rfl | rfl | rfl | rfl | rfl | rfl | rfl | rfl | rfl | rfl |
    rfl | rfl | rfl | rfl | rfl | rfl | rfl | rfl | rfl <;> simp_all

lemma filterMap_no_rain (data : List (String × Rat))
    (h : ∀ p ∈ data, p.1 ≠ "rain_count") :
    ∀ q ∈ data.filterMap
      (fun p => (lookupSM DEFAULT_SENSOR_MAP p.1).map (fun k => (k, p.2))),
      ¬ ((q.1 == "rain") = true) := by
  intro q hq hbe
  obtain ⟨p, hp, hfp⟩ := List.mem_filterMap.mp hq
  obtain ⟨k2, hk2, hq2⟩ := Option.map_eq_some'.mp hfp
  have hq1 : q.1 = k2 := by rw [← hq2]
  rw [beq_iff_eq] at hbe
  rw [hq1] at hbe
  subst hbe
  exact h p hp (rain_key_only hk2)

lemma find?_append_right {α : Type} (p : α → Bool) (A B : List α)
    (h : ∀ a ∈ A, ¬ (p a = true)) : (A ++ B).find? p = B.find? p := by
  induction A with
  | nil => simp
  | cons x xs ih =>
    rw [List.cons_append, List.find?_cons_of_neg _ (h x (by simp))]
    exact ih (fun a ha => h a (by simp [ha]))

/-- Claim C9 counterexample: the wire line `"R 1 200 -65"` carries the raw
rain count 200 (the code comments the wire range as 0-255), and processing
it stores `last_rain_count = 200`, outside the claimed range `[0, 127]`. -/
theorem C9_counterexample :
    parse_readings "R 1 200 -65" 1 0 0 =
      Except.ok (some ⟨some 1, some (-65),
        [("bat_iss", 0), ("rain_count", 200)]⟩) ∧
    (data_to_packet DEFAULT_SENSOR_MAP (rain_per_tip 1) init_last_rain_count
        [("bat_iss", 0), ("rain_count", 200)]).2 = some 200 ∧
    ¬ ((200 : Rat) ≤ 127) := by
  refine ⟨by rfl, by rfl, by norm_num⟩

/-- Claim C9 as amended: `last_rain_count` starts unset, is left unchanged
by every reading without a `rain_count` observation, and after a reading
with raw count `c` equals exactly `some c` — hence it lies in `[0, 127]`
precisely when the wire values do (the code itself allows 0-255). -/
theorem C9_amended :
    init_last_rain_count = none ∧
    (∀ (rpt : Rat) (last : Option Rat) (data : List (String × Rat)),
      (∀ p ∈ data, p.1 ≠ "rain_count") →
      (data_to_packet DEFAULT_SENSOR_MAP rpt last data).2 = last) ∧
    (∀ (rpt : Rat) (last : Option Rat) (pre post : List (String × Rat))
        (c : Rat),
      (∀ p ∈ pre, p.1 ≠ "rain_count") →
      (data_to_packet DEFAULT_SENSOR_MAP rpt last
        (pre ++ ("rain_count", c) :: post)).2 = some c) := by
  refine ⟨rfl, ?_, ?_⟩
  · intro rpt last data h
    simp only [data_to_packet]
    rw [List.find?_eq_none.mpr (filterMap_no_rain data h)]
  · intro rpt last pre post c h
    have hl : (fun (p : String × Rat) =>
        (lookupSM DEFAULT_SENSOR_MAP p.1).map (fun k => (k, p.2)))
          ("rain_count", c) = some ("rain", c) := by rfl
    simp only [data_to_packet, List.filterMap_append, List.filterMap_cons,
      hl]
    rw [find?_append_right _ _ _ (filterMap_no_rain pre h)]
    rw [List.find?_cons_of_pos _ (by rfl)]

/-- Witness for the amended claim C9: a rain-free reading leaves the
baseline at `some 5`; a reading carrying rain count 200 stores `some 200`. -/
theorem C9_amended_witness :
    (data_to_packet DEFAULT_SENSOR_MAP 0.2 (some 5)
      [("wind_speed", 3)]).2 = some 5 ∧
    (data_to_packet DEFAULT_SENSOR_MAP 0.2 none
      ([("bat_iss", 0)] ++ ("rain_count", 200) :: [])).2 = some 200 :=
  ⟨C9_amended.2.1 0.2 (some 5) [("wind_speed", 3)] (by simp),
   C9_amended.2.2 0.2 none [("bat_iss", 0)] [] 200 (by simp)⟩
